import Mathlib

/-
Verification of the identity persistence layer (database/identity.go).
The store is modelled as an explicit state: a list of table rows plus the
state of the external identifier generator and clock collaborators.  The
five operations CreateIdentity, GetIdentityByID, GetAllIdentities,
UpdateIdentity and DeleteIdentity are translated as functions on that
state, returning the same results and error classifications as the source.
-/

namespace Blnk

/-- JSON-representable values held in an identity metadata map.  This models
the Go interface values stored in a metadata map; the junserializable
constructor stands for values that the JSON codec cannot marshal (for
example channels or functions), tagged to keep values distinguishable. -/
inductive JVal where
  | jnull : JVal
  | jbool : Bool → JVal
  | jnum : Int → JVal
  | jstr : String → JVal
  | junserializable : Nat → JVal
deriving DecidableEq, Repr

/-- Metadata mapping: association list of string keys to JSON values.
A nil Go map is represented as none at use sites, an empty non-nil map as
some of the empty list. -/
abbrev MetaMap := List (String × JVal)

/-- Whether a single metadata value can be marshalled by the JSON codec. -/
def JVal.serializable : JVal → Bool
  | .junserializable _ => false
  | _ => true

/-- Whether a whole metadata mapping can be marshalled: a nil map always
marshals (to the JSON null), a non-nil map marshals when every value does. -/
def metaSerializable : Option MetaMap → Bool
  | none => true
  | some m => m.all (fun p => p.2.serializable)

/-- Serialized metadata as stored in the meta_data column.  A well-formed
blob remembers the mapping it encodes; a malformed blob models bytes that
fail to deserialize. -/
inductive Bytes where
  | wf : Option MetaMap → Bytes
  | malformed : Nat → Bytes
deriving DecidableEq, Repr

/-- Modelled from the spec: the metadata codec (encoding/json, an external
collaborator) must be lossless for JSON-representable values; marshalling
fails exactly on values it cannot represent. -/
def jsonMarshal (m : Option MetaMap) : Option Bytes :=
  if metaSerializable m then some (Bytes.wf m) else none

/-- Modelled from the spec: deserialization of a stored blob recovers the
mapping for well-formed blobs and fails on malformed ones. -/
def jsonUnmarshal (b : Bytes) : Option (Option MetaMap) :=
  match b with
  | .wf m => some m
  | .malformed _ => none

/-- The identity record, mirroring model.Identity as used by the source:
fifteen string fields, DOB and CreatedAt as timestamps (Nat, with 0 the
zero time), and the open metadata mapping. -/
structure Identity where
  identityID : String
  identityType : String
  firstName : String
  lastName : String
  otherNames : String
  gender : String
  dob : Nat
  emailAddress : String
  phoneNumber : String
  nationality : String
  organizationName : String
  category : String
  street : String
  country : String
  state : String
  postCode : String
  city : String
  createdAt : Nat
  metaData : Option MetaMap
deriving DecidableEq, Repr

/-- A row of the blnk.identity table, one column per schema field, with the
metadata column holding the serialized blob. -/
structure Row where
  identity_id : String
  identity_type : String
  first_name : String
  last_name : String
  other_names : String
  gender : String
  dob : Nat
  email_address : String
  phone_number : String
  nationality : String
  organization_name : String
  category : String
  street : String
  country : String
  state : String
  post_code : String
  city : String
  created_at : Nat
  meta_data : Bytes
deriving DecidableEq, Repr

/-- The store state: the table rows, the state of the external identifier
generator (a fresh counter) and the clock reading used for creation times. -/
structure DB where
  rows : List Row
  idCounter : Nat
  now : Nat
deriving DecidableEq, Repr

/-- Error classification used by apierror.NewAPIError. -/
inductive ErrCode where
  | internalServer : ErrCode
  | notFound : ErrCode
  | badRequest : ErrCode
deriving DecidableEq, Repr

/-- An API error: a classification plus a human-readable message. -/
structure APIError where
  code : ErrCode
  message : String
deriving DecidableEq, Repr

/-- Modelled from the spec: model.GenerateUUIDWithSuffix is not under src.
The spec describes an opaque token prefixed with the entity-type tag and
unique per call; the generator is modelled with a fresh counter. -/
def generateUUIDWithSuffix (tag : String) (counter : Nat) : String :=
  tag ++ "_" ++ Nat.repr counter

/-- Build the table row inserted for an identity with serialized metadata. -/
def rowOf (i : Identity) (metaDataJSON : Bytes) : Row :=
  { identity_id := i.identityID, identity_type := i.identityType,
    first_name := i.firstName, last_name := i.lastName,
    other_names := i.otherNames, gender := i.gender, dob := i.dob,
    email_address := i.emailAddress, phone_number := i.phoneNumber,
    nationality := i.nationality, organization_name := i.organizationName,
    category := i.category, street := i.street, country := i.country,
    state := i.state, post_code := i.postCode, city := i.city,
    created_at := i.createdAt, meta_data := metaDataJSON }

/-- Rebuild an identity from a scanned row and its deserialized metadata. -/
def identityOfRow (r : Row) (m : Option MetaMap) : Identity :=
  { identityID := r.identity_id, identityType := r.identity_type,
    firstName := r.first_name, lastName := r.last_name,
    otherNames := r.other_names, gender := r.gender, dob := r.dob,
    emailAddress := r.email_address, phoneNumber := r.phone_number,
    nationality := r.nationality, organizationName := r.organization_name,
    category := r.category, street := r.street, country := r.country,
    state := r.state, postCode := r.post_code, city := r.city,
    createdAt := r.created_at, metaData := m }

/-- CreateIdentity: marshal the metadata (failing fast with an internal
error), assign a fresh identifier and the creation timestamp, and insert
one row.  As in the source, the identity value is returned alongside the
error status, and an insert rejected by the primary-key constraint is an
internal error. -/
def createIdentity (d : DB) (identity : Identity) :
    (Identity × Option APIError) × DB :=
  match jsonMarshal identity.metaData with
  | none =>
      ((identity, some ⟨.internalServer, "Failed to marshal metadata"⟩), d)
  | some metaDataJSON =>
      let identity1 := { identity with
        identityID := generateUUIDWithSuffix "idt" d.idCounter,
        createdAt := d.now }
      if d.rows.any (fun r => r.identity_id == identity1.identityID) then
        ((identity1, some ⟨.internalServer, "Failed to create identity"⟩),
          { d with idCounter := d.idCounter + 1 })
      else
        ((identity1, none),
          { d with rows := d.rows ++ [rowOf identity1 metaDataJSON],
                   idCounter := d.idCounter + 1 })

/-- GetIdentityByID: select the row whose identity_id matches, classify a
missing row as not-found, deserialize the metadata and rebuild the
identity.  This is the state-level result; the transaction bookkeeping of
the source is modelled separately by getIdentityByIDTrace. -/
def getIdentityByID (d : DB) (id : String) : Except APIError Identity :=
  match d.rows.find? (fun r => r.identity_id == id) with
  | none =>
      .error ⟨.notFound, "Identity with ID " ++ id ++ " not found"⟩
  | some r =>
      match jsonUnmarshal r.meta_data with
      | none => .error ⟨.internalServer, "Failed to unmarshal metadata"⟩
      | some m => .ok (identityOfRow r m)

/-- Deserialize one scanned row into an identity, failing when the stored
metadata blob does not deserialize. -/
def rowToIdentityOpt (r : Row) : Option Identity :=
  (jsonUnmarshal r.meta_data).map (identityOfRow r)

/-- The row order produced by ORDER BY created_at DESC. -/
def rowDescOrder (a b : Row) : Prop := b.created_at ≤ a.created_at

instance : DecidableRel rowDescOrder := fun a b =>
  inferInstanceAs (Decidable (b.created_at ≤ a.created_at))

instance : IsTotal Row rowDescOrder :=
  ⟨fun a b => Nat.le_total b.created_at a.created_at⟩

instance : IsTrans Row rowDescOrder :=
  ⟨fun _ _ _ h1 h2 => Nat.le_trans h2 h1⟩

/-- Rows as returned by the query, most recent creation time first. -/
def sortRowsDesc (l : List Row) : List Row := List.insertionSort rowDescOrder l

/-- Scan the result set left to right, aborting with an internal error on
the first row whose metadata fails to deserialize. -/
def scanRows : List Row → Except APIError (List Identity)
  | [] => .ok []
  | r :: rest =>
      match jsonUnmarshal r.meta_data with
      | none => .error ⟨.internalServer, "Failed to unmarshal metadata"⟩
      | some m =>
          match scanRows rest with
          | .error e => .error e
          | .ok l => .ok (identityOfRow r m :: l)

/-- GetAllIdentities: query every row ordered by creation time descending
and deserialize each row in order, with no partial-result tolerance. -/
def getAllIdentities (d : DB) : Except APIError (List Identity) :=
  scanRows (sortRowsDesc d.rows)

/-- A value passed to the addField helper of UpdateIdentity: the sixteen
scalar fields are strings except DOB, a timestamp. -/
inductive FieldVal where
  | str : String → FieldVal
  | time : Nat → FieldVal
deriving DecidableEq, Repr

/-- The condition under which addField includes a field: non-empty for
strings, non-zero for timestamps. -/
def qualifies : FieldVal → Bool
  | .str s => s != ""
  | .time t => t != 0

/-- A statement parameter. -/
inductive Arg where
  | str : String → Arg
  | time : Nat → Arg
  | bytes : Bytes → Arg
deriving DecidableEq, Repr

/-- The parameter bound for a qualifying field value. -/
def argOf : FieldVal → Arg
  | .str s => .str s
  | .time t => .time t

/-- The state threaded through the addField calls: the SET clause entries,
the collected parameters, and the next placeholder number. -/
structure BuildSt where
  fields : List String
  args : List Arg
  pos : Nat
deriving DecidableEq, Repr

/-- The addField helper of UpdateIdentity: when the value qualifies, append
a SET entry naming the current placeholder, record the parameter, and
advance the placeholder counter. -/
def addField (st : BuildSt) (value : FieldVal) (fieldName : String) : BuildSt :=
  if qualifies value then
    ⟨st.fields ++ [fieldName ++ " = $" ++ Nat.repr st.pos],
     st.args ++ [argOf value], st.pos + 1⟩
  else st

/-- The sixteen addField calls of UpdateIdentity, in source order. -/
def fieldList (identity : Identity) : List (String × FieldVal) :=
  [("identity_type", .str identity.identityType),
   ("first_name", .str identity.firstName),
   ("last_name", .str identity.lastName),
   ("other_names", .str identity.otherNames),
   ("gender", .str identity.gender),
   ("dob", .time identity.dob),
   ("email_address", .str identity.emailAddress),
   ("phone_number", .str identity.phoneNumber),
   ("nationality", .str identity.nationality),
   ("organization_name", .str identity.organizationName),
   ("category", .str identity.category),
   ("street", .str identity.street),
   ("country", .str identity.country),
   ("state", .str identity.state),
   ("post_code", .str identity.postCode),
   ("city", .str identity.city)]

/-- Apply a sequence of addField calls. -/
def addFields (st : BuildSt) (l : List (String × FieldVal)) : BuildSt :=
  l.foldl (fun s p => addField s p.2 p.1) st

/-- The clause-building phase of UpdateIdentity: the sixteen addField calls
followed by the metadata block, which marshals and appends meta_data
whenever the metadata mapping is non-nil, failing with an internal error
when it cannot be marshalled. -/
def updateBuild (identity : Identity) : Except APIError BuildSt :=
  let st := addFields ⟨[], [], 1⟩ (fieldList identity)
  match identity.metaData with
  | none => .ok st
  | some m =>
      match jsonMarshal (some m) with
      | none => .error ⟨.internalServer, "Failed to marshal metadata"⟩
      | some metaDataJSON =>
          .ok ⟨st.fields ++ ["meta_data = $" ++ Nat.repr st.pos],
               st.args ++ [Arg.bytes metaDataJSON], st.pos + 1⟩

/-- The SQL text built by UpdateIdentity from the SET entries, with the
identifier placeholder in the WHERE clause. -/
def updateQueryOf (st : BuildSt) : String :=
  "UPDATE blnk.identity SET " ++ String.intercalate ", " st.fields ++
    " WHERE identity_id = $" ++ Nat.repr st.pos

/-- The statement UpdateIdentity executes: the query text with the
identifier appended as the last parameter, or the bad-request rejection
when no field qualified. -/
def updateStatement (identity : Identity) :
    Except APIError (String × List Arg) :=
  match updateBuild identity with
  | .error e => .error e
  | .ok st =>
      if st.fields.isEmpty then
        .error ⟨.badRequest, "No fields provided for update"⟩
      else
        .ok (updateQueryOf st, st.args ++ [Arg.str identity.identityID])

/-- The effect of the built UPDATE statement on one matching row: each
column is replaced exactly when its field qualified, and the metadata
column is replaced by the marshalled mapping exactly when the mapping is
non-nil. -/
def applyUpdate (r : Row) (i : Identity) : Row :=
  { r with
    identity_type := if i.identityType != "" then i.identityType else r.identity_type,
    first_name := if i.firstName != "" then i.firstName else r.first_name,
    last_name := if i.lastName != "" then i.lastName else r.last_name,
    other_names := if i.otherNames != "" then i.otherNames else r.other_names,
    gender := if i.gender != "" then i.gender else r.gender,
    dob := if i.dob != 0 then i.dob else r.dob,
    email_address := if i.emailAddress != "" then i.emailAddress else r.email_address,
    phone_number := if i.phoneNumber != "" then i.phoneNumber else r.phone_number,
    nationality := if i.nationality != "" then i.nationality else r.nationality,
    organization_name := if i.organizationName != "" then i.organizationName else r.organization_name,
    category := if i.category != "" then i.category else r.category,
    street := if i.street != "" then i.street else r.street,
    country := if i.country != "" then i.country else r.country,
    state := if i.state != "" then i.state else r.state,
    post_code := if i.postCode != "" then i.postCode else r.post_code,
    city := if i.city != "" then i.city else r.city,
    meta_data := if i.metaData.isSome then Bytes.wf i.metaData else r.meta_data }

/-- UpdateIdentity: build the SET clause, reject an empty clause as a bad
request before executing anything, then execute the single UPDATE and
classify zero affected rows as not-found. -/
def updateIdentity (d : DB) (identity : Identity) :
    Except APIError Unit × DB :=
  match updateBuild identity with
  | .error e => (.error e, d)
  | .ok st =>
      if st.fields.isEmpty then
        (.error ⟨.badRequest, "No fields provided for update"⟩, d)
      else
        let newRows := d.rows.map (fun r =>
          if r.identity_id == identity.identityID then applyUpdate r identity else r)
        let rowsAffected :=
          (d.rows.filter (fun r => r.identity_id == identity.identityID)).length
        if rowsAffected = 0 then
          (.error ⟨.notFound,
            "Identity with ID " ++ identity.identityID ++ " not found"⟩,
           { d with rows := newRows })
        else
          (.ok (), { d with rows := newRows })

/-- DeleteIdentity: execute the single DELETE and classify zero affected
rows as not-found. -/
def deleteIdentity (d : DB) (id : String) : Except APIError Unit × DB :=
  let remaining := d.rows.filter (fun r => !(r.identity_id == id))
  let rowsAffected := d.rows.length - remaining.length
  if rowsAffected = 0 then
    (.error ⟨.notFound, "Identity with ID " ++ id ++ " not found"⟩,
     { d with rows := remaining })
  else
    (.ok (), { d with rows := remaining })

/-- Transaction-level actions observable in GetIdentityByID. -/
inductive TxAction where
  | txBegin : TxAction
  | txRollback : TxAction
  | txCommit : TxAction
deriving DecidableEq, Repr

/-- Outcome of scanning the selected row: a scanned metadata blob, the
no-rows outcome, or some other scan failure. -/
inductive ScanRes where
  | scanOk : Bytes → ScanRes
  | scanNoRows : ScanRes
  | scanFail : ScanRes
deriving DecidableEq, Repr

/-- The transaction bookkeeping of GetIdentityByID, parameterized by the
outcomes of the external steps: the emitted transaction actions in order,
and the classification of the returned error if any.  Mirrors the source
control flow: rollback after a failed scan or a failed metadata
deserialization; the commit-failure branch returns without a rollback. -/
def getIdentityByIDTrace (beginOk : Bool) (scan : ScanRes) (commitOk : Bool) :
    List TxAction × Option ErrCode :=
  if !beginOk then ([], some .internalServer)
  else
    match scan with
    | .scanNoRows => ([.txBegin, .txRollback], some .notFound)
    | .scanFail => ([.txBegin, .txRollback], some .internalServer)
    | .scanOk metaDataJSON =>
        match jsonUnmarshal metaDataJSON with
        | none => ([.txBegin, .txRollback], some .internalServer)
        | some _ =>
            if commitOk then ([.txBegin, .txCommit], none)
            else ([.txBegin, .txCommit], some .internalServer)

/-- Sequential placeholder numbering of SET entries, starting at a given
position. -/
def numberFrom : Nat → List (String × FieldVal) → List String
  | _, [] => []
  | n, p :: rest => (p.1 ++ " = $" ++ Nat.repr n) :: numberFrom (n + 1) rest

/-- The scalar fields of an identity that qualify for an update, in the
canonical column order. -/
def qualifiedFields (identity : Identity) : List (String × FieldVal) :=
  (fieldList identity).filter (fun p => qualifies p.2)

/-- Specification form of the SET entries: the qualifying scalar fields in
canonical order with placeholders numbered from 1, then meta_data exactly
when the metadata mapping is non-nil. -/
def specSetFields (identity : Identity) : List String :=
  numberFrom 1 (qualifiedFields identity) ++
    (if identity.metaData.isSome then
      ["meta_data = $" ++ Nat.repr ((qualifiedFields identity).length + 1)]
     else [])

/-- Specification form of the collected parameters. -/
def specArgs (identity : Identity) : List Arg :=
  (qualifiedFields identity).map (fun p => argOf p.2) ++
    (match identity.metaData with
     | some m => [Arg.bytes (Bytes.wf (some m))]
     | none => [])

/-- Number of SET entries contributed by an identity. -/
def nQual (identity : Identity) : Nat :=
  (qualifiedFields identity).length +
    (if identity.metaData.isSome then 1 else 0)

theorem addFields_spec (l : List (String × FieldVal)) (st : BuildSt) :
    addFields st l =
      ⟨st.fields ++ numberFrom st.pos (l.filter (fun p => qualifies p.2)),
       st.args ++ (l.filter (fun p => qualifies p.2)).map (fun p => argOf p.2),
       st.pos + (l.filter (fun p => qualifies p.2)).length⟩ := by
  induction l generalizing st with
  | nil => simp [addFields, numberFrom]
  | cons p rest ih =>
    cases hq : qualifies p.2 with
    | false =>
      have h1 : addFields st (p :: rest) = addFields st rest := by
        simp [addFields, addField, hq]
      rw [h1, ih]
      simp [List.filter_cons, hq]
    | true =>
      have h1 : addFields st (p :: rest) =
          addFields ⟨st.fields ++ [p.1 ++ " = $" ++ Nat.repr st.pos],
                     st.args ++ [argOf p.2], st.pos + 1⟩ rest := by
        simp [addFields, addField, hq]
      rw [h1, ih]
      simp only [List.filter_cons, hq, if_true, numberFrom, List.map_cons,
        List.length_cons, List.append_assoc, List.singleton_append,
        BuildSt.mk.injEq]
      exact ⟨trivial, trivial, by omega⟩

theorem find?_append_right {α : Type} (p : α → Bool) (l1 l2 : List α)
    (h : l1.any p = false) : (l1 ++ l2).find? p = l2.find? p := by
  induction l1 with
  | nil => rfl
  | cons a l ih =>
    rw [List.any_cons, Bool.or_eq_false_iff] at h
    rw [List.cons_append, List.find?_cons_of_neg _ (by simp [h.1]), ih h.2]

theorem identityOfRow_rowOf (i : Identity) (b : Bytes) :
    identityOfRow (rowOf i b) i.metaData = i := rfl

theorem updateBuild_base (identity : Identity) :
    addFields ⟨[], [], 1⟩ (fieldList identity) =
      ⟨numberFrom 1 (qualifiedFields identity),
       (qualifiedFields identity).map (fun p => argOf p.2),
       1 + (qualifiedFields identity).length⟩ := by
  rw [addFields_spec]
  simp [qualifiedFields]

theorem updateBuild_eq (identity : Identity)
    (h : metaSerializable identity.metaData = true) :
    updateBuild identity =
      .ok ⟨specSetFields identity, specArgs identity, nQual identity + 1⟩ := by
  unfold updateBuild
  rw [updateBuild_base]
  cases hm : identity.metaData with
  | none =>
    simp only [specSetFields, specArgs, nQual, hm, Option.isSome_none,
      Bool.false_eq_true, if_false, List.append_nil, Except.ok.injEq,
      BuildSt.mk.injEq]
    refine ⟨?_, ?_, ?_⟩ <;> first | trivial | omega
  | some m =>
    have hser : metaSerializable (some m) = true := by rw [← hm]; exact h
    simp only [jsonMarshal, hser, if_true]
    simp only [specSetFields, specArgs, nQual, hm, Option.isSome_some,
      if_true, Except.ok.injEq, BuildSt.mk.injEq]
    refine ⟨?_, ?_, ?_⟩
    · rw [Nat.add_comm]
    · trivial
    · omega

/-- C2: UpdateIdentity builds its SET clause from exactly the qualifying
fields (non-empty strings, non-zero timestamps, non-nil metadata), in the
canonical column order with meta_data last, placeholders numbered
sequentially from 1, and the identifier bound to the last placeholder,
which the WHERE clause uses. -/
theorem updateIdentity_set_clause (identity : Identity)
    (h : metaSerializable identity.metaData = true) :
    updateBuild identity =
      .ok ⟨specSetFields identity, specArgs identity, nQual identity + 1⟩ ∧
    (specSetFields identity ≠ [] →
      updateStatement identity =
        .ok ("UPDATE blnk.identity SET " ++
               String.intercalate ", " (specSetFields identity) ++
               " WHERE identity_id = $" ++ Nat.repr (nQual identity + 1),
             specArgs identity ++ [Arg.str identity.identityID])) := by
  refine ⟨updateBuild_eq identity h, fun hne => ?_⟩
  unfold updateStatement
  rw [updateBuild_eq identity h]
  simp only [List.isEmpty_eq_true]
  rw [if_neg hne]
  rfl

theorem get_after_insert (rows : List Row) (c n : Nat) (i : Identity)
    (hc : rows.any (fun r => r.identity_id == i.identityID) = false) :
    getIdentityByID ⟨rows ++ [rowOf i (Bytes.wf i.metaData)], c, n⟩
      i.identityID = .ok i := by
  have hfind : (rows ++ [rowOf i (Bytes.wf i.metaData)]).find?
      (fun r => r.identity_id == i.identityID) =
      some (rowOf i (Bytes.wf i.metaData)) := by
    rw [find?_append_right _ _ _ hc]
    exact List.find?_cons_of_pos _ (by simp [rowOf])
  have hmd : (rowOf i (Bytes.wf i.metaData)).meta_data =
      Bytes.wf i.metaData := rfl
  simp only [getIdentityByID, hfind, hmd, jsonUnmarshal, identityOfRow_rowOf]

/-- C1: an identity successfully created is returned unchanged by a
subsequent lookup of its generated identifier, every field equal and the
metadata mapping recovered from its stored serialization. -/
theorem createIdentity_getIdentityByID_roundtrip (d : DB)
    (identity result : Identity) (d' : DB)
    (h : createIdentity d identity = ((result, none), d')) :
    getIdentityByID d' result.identityID = .ok result := by
  unfold createIdentity at h
  cases hm : jsonMarshal identity.metaData with
  | none => rw [hm] at h; simp at h
  | some b =>
    rw [hm] at h
    simp only at h
    split at h
    · simp at h
    · rename_i hc
      have hb : b = Bytes.wf identity.metaData := by
        unfold jsonMarshal at hm
        split at hm
        · exact (Option.some.inj hm).symm
        · simp at hm
      subst hb
      simp only [Prod.mk.injEq] at h
      obtain ⟨⟨hres, -⟩, hdb⟩ := h
      subst hres
      subst hdb
      exact get_after_insert d.rows (d.idCounter + 1) d.now _
        (by simpa using hc)

theorem map_eq_self_of {α : Type} (l : List α) (f : α → α)
    (h : ∀ a ∈ l, f a = a) : l.map f = l := by
  induction l with
  | nil => rfl
  | cons a l ih =>
    rw [List.map_cons, h a (List.mem_cons_self a l),
      ih (fun b hb => h b (List.mem_cons_of_mem a hb))]

theorem filter_eq_self_of {α : Type} (l : List α) (p : α → Bool)
    (h : ∀ a ∈ l, p a = true) : l.filter p = l := by
  induction l with
  | nil => rfl
  | cons a l ih =>
    rw [List.filter_cons, if_pos (h a (List.mem_cons_self a l)),
      ih (fun b hb => h b (List.mem_cons_of_mem a hb))]

/-- C3 (amended): the metadata field contributes a SET entry exactly when
the metadata mapping is non-nil (present), even when the mapping is empty,
and when it contributes the stored value is fully replaced by the
marshalled mapping, with no field-level merge. -/
theorem updateIdentity_metadata_replacement (identity : Identity)
    (h : metaSerializable identity.metaData = true) :
    updateBuild identity = .ok
      ⟨numberFrom 1 (qualifiedFields identity) ++
         (if identity.metaData.isSome then
           ["meta_data = $" ++ Nat.repr ((qualifiedFields identity).length + 1)]
          else []),
       (qualifiedFields identity).map (fun p => argOf p.2) ++
         (match identity.metaData with
          | some m => [Arg.bytes (Bytes.wf (some m))]
          | none => []),
       nQual identity + 1⟩ ∧
    ∀ r : Row, (applyUpdate r identity).meta_data =
      (if identity.metaData.isSome then Bytes.wf identity.metaData
       else r.meta_data) :=
  ⟨updateBuild_eq identity h, fun _ => rfl⟩

/-- C3 counterexample: an identity whose metadata mapping is present but
empty.  Contrary to the claim, the empty mapping does contribute a SET
entry replacing the stored metadata. -/
def c3CexIdentity : Identity :=
  { identityID := "idt_cex", identityType := "", firstName := "",
    lastName := "", otherNames := "", gender := "", dob := 0,
    emailAddress := "", phoneNumber := "", nationality := "",
    organizationName := "", category := "", street := "", country := "",
    state := "", postCode := "", city := "", createdAt := 0,
    metaData := some [] }

/-- C3 counterexample: with a present but empty metadata mapping, the claim
says no SET entry is contributed, but UpdateIdentity builds the clause
SET meta_data with the marshalled empty mapping as its parameter. -/
theorem updateIdentity_metadata_empty_contributes :
    c3CexIdentity.metaData = some [] ∧
    updateBuild c3CexIdentity =
      .ok ⟨["meta_data = $1"], [Arg.bytes (Bytes.wf (some []))], 2⟩ := by
  exact ⟨rfl, rfl⟩

/-- C5: an update in which no field qualifies (every string field empty,
every timestamp zero, metadata nil) is rejected as a bad request before
any statement executes, and the store is unchanged. -/
theorem updateIdentity_empty_rejected (d : DB) (identity : Identity)
    (h1 : (fieldList identity).all (fun p => !qualifies p.2) = true)
    (h2 : identity.metaData = none) :
    updateIdentity d identity =
      (.error ⟨.badRequest, "No fields provided for update"⟩, d) := by
  have hq : qualifiedFields identity = [] := by
    unfold qualifiedFields
    rw [List.filter_eq_nil_iff]
    intro p hp
    have hv := (List.all_eq_true.mp h1) p hp
    simp only [Bool.not_eq_true'] at hv
    simp [hv]
  have hser : metaSerializable identity.metaData = true := by rw [h2]; rfl
  have hfe : specSetFields identity = [] := by
    simp [specSetFields, hq, h2, numberFrom]
  simp only [updateIdentity, updateBuild_eq identity hser, hfe]
  rfl

/-- C10: when the metadata of the input cannot be serialized,
CreateIdentity fails with an internal error before generating an
identifier, setting a timestamp or touching the store: the identity is
returned exactly as supplied and the state is unchanged. -/
theorem createIdentity_marshal_failure (d : DB) (identity : Identity)
    (h : metaSerializable identity.metaData = false) :
    createIdentity d identity =
      ((identity, some ⟨.internalServer, "Failed to marshal metadata"⟩), d) := by
  unfold createIdentity
  have hm : jsonMarshal identity.metaData = none := by
    simp [jsonMarshal, h]
  rw [hm]

/-- C4 counterexample: a failing execution after the transaction has begun
(the scan and the metadata deserialization succeed, the commit fails) in
which the returned trace performs no rollback, contrary to the claim that
every such failure path rolls back before returning. -/
theorem getIdentityByID_commit_failure_no_rollback :
    getIdentityByIDTrace true (ScanRes.scanOk (Bytes.wf none)) false =
      ([TxAction.txBegin, TxAction.txCommit], some ErrCode.internalServer) ∧
    TxAction.txRollback ∉ [TxAction.txBegin, TxAction.txCommit] := by
  decide

/-- C4 (amended): after the transaction has begun, a row-scan failure
(including no matching row) and a metadata-deserialization failure roll
the transaction back before the error is returned; a commit failure
returns the internal error without a rollback. -/
theorem getIdentityByID_rollback_on_failure (scan : ScanRes) (commitOk : Bool) :
    (scan = .scanNoRows →
      getIdentityByIDTrace true scan commitOk =
        ([.txBegin, .txRollback], some .notFound)) ∧
    (scan = .scanFail →
      getIdentityByIDTrace true scan commitOk =
        ([.txBegin, .txRollback], some .internalServer)) ∧
    (∀ b, scan = .scanOk b → jsonUnmarshal b = none →
      getIdentityByIDTrace true scan commitOk =
        ([.txBegin, .txRollback], some .internalServer)) ∧
    (∀ b m, scan = .scanOk b → jsonUnmarshal b = some m → commitOk = false →
      getIdentityByIDTrace true scan commitOk =
        ([.txBegin, .txCommit], some .internalServer)) := by
  refine ⟨?_, ?_, ?_, ?_⟩
  · rintro rfl; rfl
  · rintro rfl; rfl
  · rintro b rfl hb
    simp [getIdentityByIDTrace, hb]
  · rintro b m rfl hb rfl
    simp [getIdentityByIDTrace, hb]

/-- C6: when no stored row carries the identifier, lookup returns
not-found, an update carrying at least one qualifying field returns
not-found, and delete returns not-found; in each case the store is
unchanged. -/
theorem missing_id_not_found (d : DB) (id : String) (identity : Identity)
    (hid : identity.identityID = id)
    (hmiss : ∀ r ∈ d.rows, r.identity_id ≠ id)
    (hser : metaSerializable identity.metaData = true)
    (hne : specSetFields identity ≠ []) :
    getIdentityByID d id =
      .error ⟨.notFound, "Identity with ID " ++ id ++ " not found"⟩ ∧
    updateIdentity d identity =
      (.error ⟨.notFound, "Identity with ID " ++ id ++ " not found"⟩, d) ∧
    deleteIdentity d id =
      (.error ⟨.notFound, "Identity with ID " ++ id ++ " not found"⟩, d) := by
  subst hid
  refine ⟨?_, ?_, ?_⟩
  · have hfind : d.rows.find?
        (fun r => r.identity_id == identity.identityID) = none := by
      rw [List.find?_eq_none]
      intro r hr
      simp [hmiss r hr]
    simp [getIdentityByID, hfind]
  · have hmap : d.rows.map (fun r =>
        if r.identity_id == identity.identityID then applyUpdate r identity
        else r) = d.rows := by
      apply map_eq_self_of
      intro r hr
      rw [if_neg (by simp [hmiss r hr])]
    have hfil : d.rows.filter
        (fun r => r.identity_id == identity.identityID) = [] := by
      rw [List.filter_eq_nil_iff]
      intro r hr
      simp [hmiss r hr]
    simp only [updateIdentity, updateBuild_eq identity hser,
      List.isEmpty_eq_true, if_neg hne, hmap, hfil, List.length_nil]
    rfl
  · have hfil : d.rows.filter
        (fun r => !(r.identity_id == identity.identityID)) = d.rows := by
      apply filter_eq_self_of
      intro r hr
      simp [hmiss r hr]
    simp only [deleteIdentity, hfil, Nat.sub_self]
    rfl

/-- C9: on a successful update, the store maps each matching row through
the built SET clause and leaves every other row alone; the identity_id and
created_at columns are never modified, and every column whose input field
did not qualify keeps its stored value. -/
theorem updateIdentity_frame (d : DB) (identity : Identity) (d' : DB)
    (h : updateIdentity d identity = (.ok (), d')) :
    d'.rows = d.rows.map (fun r =>
      if r.identity_id == identity.identityID then applyUpdate r identity
      else r) ∧
    (∀ r : Row, (applyUpdate r identity).identity_id = r.identity_id) ∧
    (∀ r : Row, (applyUpdate r identity).created_at = r.created_at) ∧
    (∀ r : Row, identity.identityType = "" →
      (applyUpdate r identity).identity_type = r.identity_type) ∧
    (∀ r : Row, identity.firstName = "" →
      (applyUpdate r identity).first_name = r.first_name) ∧
    (∀ r : Row, identity.lastName = "" →
      (applyUpdate r identity).last_name = r.last_name) ∧
    (∀ r : Row, identity.otherNames = "" →
      (applyUpdate r identity).other_names = r.other_names) ∧
    (∀ r : Row, identity.gender = "" →
      (applyUpdate r identity).gender = r.gender) ∧
    (∀ r : Row, identity.dob = 0 →
      (applyUpdate r identity).dob = r.dob) ∧
    (∀ r : Row, identity.emailAddress = "" →
      (applyUpdate r identity).email_address = r.email_address) ∧
    (∀ r : Row, identity.phoneNumber = "" →
      (applyUpdate r identity).phone_number = r.phone_number) ∧
    (∀ r : Row, identity.nationality = "" →
      (applyUpdate r identity).nationality = r.nationality) ∧
    (∀ r : Row, identity.organizationName = "" →
      (applyUpdate r identity).organization_name = r.organization_name) ∧
    (∀ r : Row, identity.category = "" →
      (applyUpdate r identity).category = r.category) ∧
    (∀ r : Row, identity.street = "" →
      (applyUpdate r identity).street = r.street) ∧
    (∀ r : Row, identity.country = "" →
      (applyUpdate r identity).country = r.country) ∧
    (∀ r : Row, identity.state = "" →
      (applyUpdate r identity).state = r.state) ∧
    (∀ r : Row, identity.postCode = "" →
      (applyUpdate r identity).post_code = r.post_code) ∧
    (∀ r : Row, identity.city = "" →
      (applyUpdate r identity).city = r.city) ∧
    (∀ r : Row, identity.metaData = none →
      (applyUpdate r identity).meta_data = r.meta_data) := by
  refine ⟨?_, fun r => rfl, fun r => rfl, ?_, ?_, ?_, ?_, ?_, ?_, ?_, ?_,
    ?_, ?_, ?_, ?_, ?_, ?_, ?_, ?_, ?_⟩
  · unfold updateIdentity at h
    split at h
    · simp at h
    · split at h
      · simp at h
      · dsimp only at h
        split at h
        · simp at h
        · rw [Prod.mk.injEq] at h
          rw [← h.2]
  all_goals (intro r h0; simp [applyUpdate, h0])

theorem createIdentity_ok (d : DB) (i r : Identity) (d' : DB)
    (h : createIdentity d i = ((r, none), d')) :
    metaSerializable i.metaData = true ∧
    r = { i with identityID := generateUUIDWithSuffix "idt" d.idCounter,
                 createdAt := d.now } ∧
    d' = { d with rows := d.rows ++ [rowOf r (Bytes.wf i.metaData)],
                  idCounter := d.idCounter + 1 } ∧
    d.rows.any (fun row => row.identity_id ==
      generateUUIDWithSuffix "idt" d.idCounter) = false := by
  unfold createIdentity at h
  cases hm : jsonMarshal i.metaData with
  | none => rw [hm] at h; simp at h
  | some b =>
    rw [hm] at h
    simp only at h
    split at h
    · simp at h
    · rename_i hc
      have hser : metaSerializable i.metaData = true := by
        unfold jsonMarshal at hm
        split at hm
        · assumption
        · simp at hm
      have hb : b = Bytes.wf i.metaData := by
        unfold jsonMarshal at hm
        rw [if_pos hser] at hm
        exact (Option.some.inj hm).symm
      subst hb
      simp only [Prod.mk.injEq] at h
      obtain ⟨⟨hres, -⟩, hdb⟩ := h
      refine ⟨hser, hres.symm, ?_, by simpa using hc⟩
      rw [← hdb, ← hres]

/-- C8: a successful CreateIdentity overwrites any caller-supplied
identifier and timestamp with store-assigned values: the identifier is
non-empty, prefixed with the entity-type tag idt and distinct from the
identifier of a subsequent successful creation, and the creation time is
the clock reading of the store at the call. -/
theorem createIdentity_assigns_identifier (d : DB) (i1 r1 : Identity)
    (d1 : DB) (i2 r2 : Identity) (d2 : DB)
    (h1 : createIdentity d i1 = ((r1, none), d1))
    (h2 : createIdentity d1 i2 = ((r2, none), d2)) :
    r1 = { i1 with identityID := generateUUIDWithSuffix "idt" d.idCounter,
                   createdAt := d.now } ∧
    r1.identityID ≠ "" ∧
    (∃ rest, r1.identityID = "idt" ++ rest) ∧
    r1.createdAt = d.now ∧
    r1.identityID ≠ r2.identityID := by
  obtain ⟨-, hres1, hdb1, -⟩ := createIdentity_ok d i1 r1 d1 h1
  obtain ⟨-, hres2, -, hany2⟩ := createIdentity_ok d1 i2 r2 d2 h2
  have hid1 : r1.identityID = generateUUIDWithSuffix "idt" d.idCounter := by
    rw [hres1]
  refine ⟨hres1, ?_, ?_, by rw [hres1], ?_⟩
  · rw [hid1]
    simp only [generateUUIDWithSuffix]
    intro heq
    have hlen := congrArg String.length heq
    rw [String.length_append, String.length_append] at hlen
    have h3 : "idt".length = 3 := rfl
    have h0 : "".length = 0 := rfl
    rw [h3, h0] at hlen
    omega
  · refine ⟨"_" ++ Nat.repr d.idCounter, ?_⟩
    rw [hid1]
    simp only [generateUUIDWithSuffix]
    rw [String.append_assoc]
  · intro heq
    have hid2 : r2.identityID = generateUUIDWithSuffix "idt" d1.idCounter := by
      rw [hres2]
    have hmem : rowOf r1 (Bytes.wf i1.metaData) ∈ d1.rows := by
      rw [hdb1]
      simp
    have hpred : ((rowOf r1 (Bytes.wf i1.metaData)).identity_id ==
        generateUUIDWithSuffix "idt" d1.idCounter) = true := by
      have : (rowOf r1 (Bytes.wf i1.metaData)).identity_id =
          r1.identityID := rfl
      rw [this, heq, ← hid2]
      simp
    have hany : d1.rows.any (fun row => row.identity_id ==
        generateUUIDWithSuffix "idt" d1.idCounter) = true := by
      rw [List.any_eq_true]
      exact ⟨_, hmem, hpred⟩
    rw [hany] at hany2
    simp at hany2

theorem scanRows_ok_forall₂ (l : List Row) (out : List Identity)
    (h : scanRows l = .ok out) :
    List.Forall₂ (fun r x => rowToIdentityOpt r = some x) l out := by
  induction l generalizing out with
  | nil =>
    have hout : ([] : List Identity) = out := Except.ok.inj h
    rw [← hout]
    exact List.Forall₂.nil
  | cons r rest ih =>
    unfold scanRows at h
    cases hm : jsonUnmarshal r.meta_data with
    | none => rw [hm] at h; simp at h
    | some m =>
      rw [hm] at h
      cases hr : scanRows rest with
      | error e => rw [hr] at h; simp at h
      | ok l2 =>
        rw [hr] at h
        simp only [Except.ok.injEq] at h
        subst h
        exact List.Forall₂.cons (by simp [rowToIdentityOpt, hm]) (ih l2 hr)

theorem scanRows_err_of_bad (l : List Row)
    (hbad : ∃ r ∈ l, jsonUnmarshal r.meta_data = none) :
    scanRows l =
      .error ⟨.internalServer, "Failed to unmarshal metadata"⟩ := by
  induction l with
  | nil => simp at hbad
  | cons r rest ih =>
    unfold scanRows
    cases hm : jsonUnmarshal r.meta_data with
    | none => rfl
    | some m =>
      obtain ⟨r2, hr2, hbad2⟩ := hbad
      rcases List.mem_cons.mp hr2 with rfl | hmem
      · rw [hm] at hbad2; simp at hbad2
      · rw [ih ⟨r2, hmem, hbad2⟩]

theorem forall₂_mem_right {α β : Type} {R : α → β → Prop} :
    ∀ {l1 : List α} {l2 : List β}, List.Forall₂ R l1 l2 →
      ∀ b ∈ l2, ∃ a ∈ l1, R a b := by
  intro l1 l2 h
  induction h with
  | nil => intro b hb; simp at hb
  | cons hr hf ih =>
    intro b hb
    rcases List.mem_cons.mp hb with rfl | hb2
    · exact ⟨_, List.mem_cons_self _ _, hr⟩
    · obtain ⟨a, ha, hra⟩ := ih b hb2
      exact ⟨a, List.mem_cons_of_mem _ ha, hra⟩

theorem pairwise_of_forall₂ {α β : Type} {R : α → β → Prop}
    {P : α → α → Prop} {Q : β → β → Prop}
    (hRP : ∀ a b a2 b2, R a a2 → R b b2 → P a b → Q a2 b2) :
    ∀ {l1 : List α} {l2 : List β}, List.Forall₂ R l1 l2 →
      l1.Pairwise P → l2.Pairwise Q := by
  intro l1 l2 hf
  induction hf with
  | nil => intro _; exact List.Pairwise.nil
  | cons hr hf2 ih =>
    intro hp
    obtain ⟨h1, hp2⟩ := List.pairwise_cons.mp hp
    refine List.Pairwise.cons ?_ (ih hp2)
    intro b2 hb2
    obtain ⟨a2, ha2, hra2⟩ := forall₂_mem_right hf2 b2 hb2
    exact hRP _ _ _ _ hr hra2 (h1 a2 ha2)

theorem rowToIdentityOpt_createdAt (r : Row) (x : Identity)
    (h : rowToIdentityOpt r = some x) : x.createdAt = r.created_at := by
  unfold rowToIdentityOpt at h
  cases hm : jsonUnmarshal r.meta_data with
  | none => rw [hm] at h; simp at h
  | some m =>
    rw [hm] at h
    have hx : identityOfRow r m = x := Option.some.inj h
    rw [← hx]
    rfl

/-- C7: GetAllIdentities returns a result corresponding row by row to the
stored rows sorted by creation time descending (a permutation of the whole
store), an empty store yields the empty result with no error, and a
metadata-deserialization failure on any row aborts the whole operation
with an internal error and no partial result. -/
theorem getAllIdentities_spec (d : DB) :
    (d.rows = [] → getAllIdentities d = .ok []) ∧
    (∀ l, getAllIdentities d = .ok l →
       l.Pairwise (fun a b => b.createdAt ≤ a.createdAt) ∧
       List.Forall₂ (fun r x => rowToIdentityOpt r = some x)
         (sortRowsDesc d.rows) l ∧
       List.Perm (sortRowsDesc d.rows) d.rows) ∧
    ((∃ r ∈ d.rows, jsonUnmarshal r.meta_data = none) →
       getAllIdentities d =
         .error ⟨.internalServer, "Failed to unmarshal metadata"⟩) := by
  refine ⟨?_, ?_, ?_⟩
  · intro h
    rw [getAllIdentities, h]
    rfl
  · intro l h
    have hf := scanRows_ok_forall₂ _ _ h
    have hsorted : (sortRowsDesc d.rows).Pairwise rowDescOrder :=
      List.sorted_insertionSort rowDescOrder d.rows
    refine ⟨?_, hf, List.perm_insertionSort rowDescOrder d.rows⟩
    refine pairwise_of_forall₂ ?_ hf hsorted
    intro a b a2 b2 ha hb hab
    rw [rowToIdentityOpt_createdAt a a2 ha, rowToIdentityOpt_createdAt b b2 hb]
    exact hab
  · intro hbad
    obtain ⟨r, hr, hm⟩ := hbad
    refine scanRows_err_of_bad _ ⟨r, ?_, hm⟩
    unfold sortRowsDesc
    rw [List.mem_insertionSort]
    exact hr

/-- Base identity whose every field is at its zero value. -/
def emptyIdentity : Identity :=
  { identityID := "", identityType := "", firstName := "", lastName := "",
    otherNames := "", gender := "", dob := 0, emailAddress := "",
    phoneNumber := "", nationality := "", organizationName := "",
    category := "", street := "", country := "", state := "",
    postCode := "", city := "", createdAt := 0, metaData := none }

/-- An empty store with clock reading 100. -/
def witDB : DB := ⟨[], 0, 100⟩

/-- An input identity with a caller-supplied identifier and metadata. -/
def witIdentity : Identity :=
  { emptyIdentity with
    identityID := "caller-id", firstName := "Ada",
    metaData := some [("k", JVal.jstr "v")] }

/-- The identity returned by creating witIdentity in witDB. -/
def witCreated : Identity :=
  { witIdentity with identityID := "idt_0", createdAt := 100 }

/-- The store after creating witIdentity in witDB. -/
def witDB1 : DB := ⟨[rowOf witCreated (Bytes.wf witIdentity.metaData)], 1, 100⟩

theorem createIdentity_getIdentityByID_roundtrip_witness :
    createIdentity witDB witIdentity = ((witCreated, none), witDB1) ∧
    getIdentityByID witDB1 witCreated.identityID = .ok witCreated :=
  ⟨by decide,
   createIdentity_getIdentityByID_roundtrip witDB witIdentity witCreated
     witDB1 (by decide)⟩

/-- An update input with one qualifying scalar field and metadata. -/
def witUpd : Identity :=
  { emptyIdentity with
    identityID := "idt_7", firstName := "C",
    metaData := some [("k", JVal.jnum 2)] }

theorem updateIdentity_set_clause_witness :
    metaSerializable witUpd.metaData = true ∧
    specSetFields witUpd ≠ [] ∧
    updateBuild witUpd =
      .ok ⟨specSetFields witUpd, specArgs witUpd, nQual witUpd + 1⟩ ∧
    updateStatement witUpd =
      .ok ("UPDATE blnk.identity SET " ++
             String.intercalate ", " (specSetFields witUpd) ++
             " WHERE identity_id = $" ++ Nat.repr (nQual witUpd + 1),
           specArgs witUpd ++ [Arg.str witUpd.identityID]) :=
  ⟨by decide, by decide, (updateIdentity_set_clause witUpd (by decide)).1,
   (updateIdentity_set_clause witUpd (by decide)).2 (by decide)⟩

/-- A stored row used to observe the effect of applyUpdate. -/
def witRow : Row :=
  rowOf { emptyIdentity with identityID := "idt_8" }
    (Bytes.wf (some [("a", JVal.jnull)]))

theorem updateIdentity_metadata_replacement_witness :
    metaSerializable c3CexIdentity.metaData = true ∧
    updateBuild c3CexIdentity =
      .ok ⟨["meta_data = $1"], [Arg.bytes (Bytes.wf (some []))], 2⟩ ∧
    (applyUpdate witRow c3CexIdentity).meta_data = Bytes.wf (some []) := by
  refine ⟨by decide, ?_, ?_⟩
  · exact (updateIdentity_metadata_replacement c3CexIdentity (by decide)).1
  · exact (updateIdentity_metadata_replacement c3CexIdentity (by decide)).2
      witRow

theorem getIdentityByID_rollback_on_failure_witness :
    getIdentityByIDTrace true ScanRes.scanNoRows true =
      ([TxAction.txBegin, TxAction.txRollback], some ErrCode.notFound) ∧
    getIdentityByIDTrace true (ScanRes.scanOk (Bytes.malformed 0)) true =
      ([TxAction.txBegin, TxAction.txRollback], some ErrCode.internalServer) ∧
    getIdentityByIDTrace true (ScanRes.scanOk (Bytes.wf none)) false =
      ([TxAction.txBegin, TxAction.txCommit], some ErrCode.internalServer) :=
  ⟨(getIdentityByID_rollback_on_failure ScanRes.scanNoRows true).1 rfl,
   (getIdentityByID_rollback_on_failure (ScanRes.scanOk (Bytes.malformed 0))
     true).2.2.1 (Bytes.malformed 0) rfl rfl,
   (getIdentityByID_rollback_on_failure (ScanRes.scanOk (Bytes.wf none))
     false).2.2.2 (Bytes.wf none) none rfl rfl rfl⟩

/-- A store used by the empty-update witness. -/
def c5DB : DB := ⟨[rowOf witCreated (Bytes.wf none)], 2, 200⟩

/-- An update input carrying only an identifier. -/
def c5Identity : Identity := { emptyIdentity with identityID := "idt_0" }

theorem updateIdentity_empty_rejected_witness :
    updateIdentity c5DB c5Identity =
      (.error ⟨.badRequest, "No fields provided for update"⟩, c5DB) :=
  updateIdentity_empty_rejected c5DB c5Identity (by decide) (by decide)

/-- A store holding one row whose identifier is idt_a. -/
def c6DB : DB :=
  ⟨[rowOf { emptyIdentity with identityID := "idt_a", createdAt := 5 }
      (Bytes.wf none)], 3, 50⟩

/-- An update input naming a missing identifier, with a qualifying field. -/
def c6Identity : Identity :=
  { emptyIdentity with identityID := "missing", firstName := "X" }

theorem missing_id_not_found_witness :
    getIdentityByID c6DB "missing" =
      .error ⟨.notFound, "Identity with ID " ++ "missing" ++ " not found"⟩ ∧
    updateIdentity c6DB c6Identity =
      (.error ⟨.notFound, "Identity with ID " ++ "missing" ++ " not found"⟩,
        c6DB) ∧
    deleteIdentity c6DB "missing" =
      (.error ⟨.notFound, "Identity with ID " ++ "missing" ++ " not found"⟩,
        c6DB) :=
  missing_id_not_found c6DB "missing" c6Identity rfl (by decide) (by decide)
    (by decide)

/-- An empty store. -/
def c7DBEmpty : DB := ⟨[], 0, 0⟩

/-- A row whose stored metadata blob does not deserialize. -/
def c7BadRow : Row :=
  rowOf { emptyIdentity with identityID := "idt_b" } (Bytes.malformed 0)

/-- A store holding one undeserializable row. -/
def c7DBBad : DB := ⟨[c7BadRow], 0, 0⟩

theorem getAllIdentities_spec_witness :
    getAllIdentities c7DBEmpty = .ok [] ∧
    getAllIdentities c7DBBad =
      .error ⟨.internalServer, "Failed to unmarshal metadata"⟩ :=
  ⟨(getAllIdentities_spec c7DBEmpty).1 rfl,
   (getAllIdentities_spec c7DBBad).2.2 (by decide)⟩

/-- A second input identity for the repeated-creation witness. -/
def c8Identity2 : Identity := { emptyIdentity with lastName := "Two" }

/-- The identity returned by the second creation. -/
def c8Created2 : Identity :=
  { c8Identity2 with identityID := "idt_1", createdAt := 100 }

/-- The store after the second creation. -/
def c8DB2 : DB :=
  ⟨witDB1.rows ++ [rowOf c8Created2 (Bytes.wf none)], 2, 100⟩

theorem createIdentity_assigns_identifier_witness :
    witCreated = { witIdentity with
      identityID := generateUUIDWithSuffix "idt" witDB.idCounter,
      createdAt := witDB.now } ∧
    witCreated.identityID ≠ "" ∧
    (∃ rest, witCreated.identityID = "idt" ++ rest) ∧
    witCreated.createdAt = witDB.now ∧
    witCreated.identityID ≠ c8Created2.identityID :=
  createIdentity_assigns_identifier witDB witIdentity witCreated witDB1
    c8Identity2 c8Created2 c8DB2 (by decide) (by decide)

/-- A stored row with first name A and last name B. -/
def c9Row : Row :=
  rowOf { emptyIdentity with
    identityID := "idt_9", firstName := "A",
    lastName := "B", createdAt := 7 } (Bytes.wf none)

/-- A store holding c9Row. -/
def c9DB : DB := ⟨[c9Row], 1, 10⟩

/-- An update input setting only the first name. -/
def c9Upd : Identity :=
  { emptyIdentity with identityID := "idt_9", firstName := "C" }

/-- The store after updating c9Row through c9Upd. -/
def c9DB1 : DB := ⟨[applyUpdate c9Row c9Upd], 1, 10⟩

theorem updateIdentity_frame_witness :
    c9DB1.rows = c9DB.rows.map (fun r =>
      if r.identity_id == c9Upd.identityID then applyUpdate r c9Upd
      else r) ∧
    (applyUpdate c9Row c9Upd).last_name = c9Row.last_name ∧
    (applyUpdate c9Row c9Upd).created_at = c9Row.created_at := by
  have h := updateIdentity_frame c9DB c9Upd c9DB1 (by rfl)
  exact ⟨h.1, h.2.2.2.2.2.1 c9Row rfl, h.2.2.1 c9Row⟩

/-- An input identity whose metadata holds an unserializable value. -/
def c10Identity : Identity :=
  { emptyIdentity with
    identityID := "keep-me", createdAt := 42,
    metaData := some [("bad", JVal.junserializable 0)] }

/-- A store used by the marshal-failure witness. -/
def c10DB : DB := ⟨[], 5, 9⟩

theorem createIdentity_marshal_failure_witness :
    createIdentity c10DB c10Identity =
      ((c10Identity, some ⟨.internalServer, "Failed to marshal metadata"⟩),
        c10DB) :=
  createIdentity_marshal_failure c10DB c10Identity (by decide)

end Blnk
